import Mathlib

/-!
Shallow embedding of `src/docker/libreoffice/conversion-service.py`
(a Flask HTTP service wrapping a LibreOffice headless instance reached
over the UNO bridge).

HTML content, filenames and JSON strings are modelled as `List Char`.
The Python string operations used by the service (`str.replace`,
`str.find`, the `in` operator) are embedded below with the semantics
of Python, including `str.replace` with an empty pattern.

Calls into external libraries (the `uno` bridge, LibreOffice itself,
the filesystem, `hashlib`) are modelled as oracle data carried by
environment records: each call site reads one field telling whether the
call succeeds and, where relevant, what it produces.
-/

set_option maxRecDepth 8000

/-- Python `pat in s` for strings: does `pat` occur contiguously in `s`? -/
def occursB (pat : List Char) : List Char → Bool
  | [] => pat.isEmpty
  | c :: rest => pat.isPrefixOf (c :: rest) || occursB pat rest

/-- Propositional form of substring occurrence. -/
def OccursIn (pat s : List Char) : Prop := ∃ a b, s = a ++ pat ++ b

/-- Python `s.replace` with an empty `pat`: the replacement is
inserted before every character and once at the end. -/
def pyReplaceEmpty (repl : List Char) : List Char → List Char
  | [] => repl
  | c :: rest => repl ++ c :: pyReplaceEmpty repl rest

/-- Worker for `pyReplace` with a nonempty pattern: `skip` counts characters
still to drop because they belong to an occurrence already replaced. -/
def pyReplaceGo (pat repl : List Char) : List Char → Nat → List Char
  | [], _ => []
  | _ :: rest, skip + 1 => pyReplaceGo pat repl rest skip
  | c :: rest, 0 =>
    if pat.isPrefixOf (c :: rest) then
      repl ++ pyReplaceGo pat repl rest (pat.length - 1)
    else c :: pyReplaceGo pat repl rest 0

/-- Python `s.replace(pat, repl)`: replaces every non-overlapping occurrence
of `pat` left to right. -/
def pyReplace (pat repl : List Char) (s : List Char) : List Char :=
  if pat.isEmpty then pyReplaceEmpty repl s else pyReplaceGo pat repl s 0

/-- Python `s.find(pat)`: index of the first occurrence, `none` for `-1`. -/
def pyFind (pat : List Char) : List Char → Option Nat
  | [] => if pat.isEmpty then some 0 else none
  | c :: rest =>
    if pat.isPrefixOf (c :: rest) then some 0
    else (pyFind pat rest).map (· + 1)

lemma isPrefixOf_iff_ex {p l : List Char} :
    p.isPrefixOf l = true ↔ ∃ t, l = p ++ t := by
  induction p generalizing l with
  | nil => simp [List.isPrefixOf]
  | cons a as ih =>
    cases l with
    | nil => simp [List.isPrefixOf]
    | cons b bs =>
      simp only [List.isPrefixOf, Bool.and_eq_true, beq_iff_eq, ih,
        List.cons_append, List.cons.injEq]
      constructor
      · rintro ⟨rfl, t, rfl⟩; exact ⟨t, rfl, rfl⟩
      · rintro ⟨t, rfl, rfl⟩; exact ⟨rfl, t, rfl⟩

lemma occursB_iff {pat s : List Char} :
    occursB pat s = true ↔ OccursIn pat s := by
  induction s with
  | nil =>
    simp only [occursB, List.isEmpty_iff, OccursIn]
    constructor
    · rintro rfl; exact ⟨[], [], rfl⟩
    · rintro ⟨a, b, h⟩
      rcases List.append_eq_nil.mp h.symm with ⟨h1, h2⟩
      exact (List.append_eq_nil.mp h1).2
  | cons c rest ih =>
    simp only [occursB, Bool.or_eq_true, isPrefixOf_iff_ex, ih, OccursIn]
    constructor
    · rintro (⟨t, ht⟩ | ⟨a, b, hab⟩)
      · exact ⟨[], t, by simp [ht]⟩
      · exact ⟨c :: a, b, by simp [hab]⟩
    · rintro ⟨a, b, hab⟩
      cases a with
      | nil => exact Or.inl ⟨b, by simpa using hab⟩
      | cons x xs =>
        right
        simp only [List.cons_append, List.cons.injEq] at hab
        exact ⟨xs, b, hab.2⟩

lemma occursIn_pyReplaceGo {pat repl s : List Char} (hp : pat ≠ [])
    (h : OccursIn pat s) : OccursIn repl (pyReplaceGo pat repl s 0) := by
  induction s with
  | nil =>
    exfalso
    rcases h with ⟨a, b, hab⟩
    rcases List.append_eq_nil.mp hab.symm with ⟨h1, _⟩
    exact hp (List.append_eq_nil.mp h1).2
  | cons c rest ih =>
    rw [pyReplaceGo]
    by_cases hpre : pat.isPrefixOf (c :: rest) = true
    · rw [if_pos hpre]
      exact ⟨[], pyReplaceGo pat repl rest (pat.length - 1), by simp⟩
    · rw [if_neg hpre]
      have hrest : OccursIn pat rest := by
        rcases h with ⟨a, b, hab⟩
        cases a with
        | nil =>
          exfalso
          exact hpre (isPrefixOf_iff_ex.mpr ⟨b, by simpa using hab⟩)
        | cons x xs =>
          simp only [List.cons_append, List.cons.injEq] at hab
          exact ⟨xs, b, hab.2⟩
      rcases ih hrest with ⟨a, b, hab⟩
      exact ⟨c :: a, b, by simp [hab]⟩

/-- Replacing a pattern that occurs in `s` puts the replacement text into
the result. -/
lemma occursIn_pyReplace {pat repl s : List Char} (hp : pat ≠ [])
    (h : OccursIn pat s) : OccursIn repl (pyReplace pat repl s) := by
  have hpe : pat.isEmpty = false := by
    cases pat with
    | nil => exact absurd rfl hp
    | cons x xs => rfl
  rw [pyReplace, hpe]
  simp only [Bool.false_eq_true, if_false]
  exact occursIn_pyReplaceGo hp h

/-- Occurrence is transitive through containment: if `x` occurs in `y`
and `y` occurs in `z`, then `x` occurs in `z`. -/
lemma OccursIn.mono {x y z : List Char} (h1 : OccursIn x y)
    (h2 : OccursIn y z) : OccursIn x z := by
  rcases h1 with ⟨a, b, rfl⟩
  rcases h2 with ⟨c, d, rfl⟩
  exact ⟨c ++ a, b ++ d, by simp⟩

/-!
Bridge connection (`LibreOfficeConverter.get_uno_context`)

`get_uno_context` attempts `resolver.resolve(...)`; on `NoConnectException`
it restarts the LibreOffice service, sleeps, and calls itself again, with
no bound on the recursion.  We model the environment as the list of
outcomes of the successive connection attempts (`true` = resolve
succeeds, `false` = `NoConnectException`).  The result is the number of
attempts made until the first success, or `none` when no attempt in the
trace succeeds (the Python code then never returns).
-/

def get_uno_context : List Bool → Option Nat
  | [] => none
  | b :: rest => if b then some 1 else (get_uno_context rest).map (· + 1)

/-!
HTML post-processing strings

The literal strings below are transcribed from the Python source; `\x7b`
and `\x7d` denote the `{` and `}` characters of the CSS text and `\x27`
the single-quote character.  `joinLines` mirrors the line structure of
the Python triple-quoted literals.
-/

def joinLines (ls : List String) : String := String.intercalate "\n" ls

/-- Replacement text the FIRST `enhance_html_output` definition substitutes
for `</head>` (lines 138-160 of the source). -/
def v1HeadRepl : String := joinLines
  [ "",
    "                <style>",
    "                    /* Preserve exact dimensions and spacing */",
    "                    body \x7b margin: 0; padding: 0; -webkit-text-size-adjust: 100%; \x7d",
    "                    p \x7b margin-bottom: 0; white-space: pre-wrap; \x7d",
    "                    /* Preserve font metrics */",
    "                    * \x7b line-height: normal !important; font-family: inherit !important; \x7d",
    "                    /* Preserve table layouts */",
    "                    table \x7b border-collapse: collapse; width: auto !important; table-layout: fixed; \x7d",
    "                    td, th \x7b padding: inherit; border-spacing: 0; \x7d",
    "                    /* Preserve list formatting */",
    "                    ul, ol \x7b margin: 0; padding-left: 40px; list-style-position: outside; \x7d",
    "                    /* Preserve image dimensions */",
    "                    img \x7b max-width: none; height: auto; display: inline-block; \x7d",
    "                    /* Preserve section breaks and page layout */",
    "                    div \x7b page-break-inside: avoid; \x7d",
    "                    br \x7b display: block; \x7d",
    "                    /* Preserve whitespace */",
    "                    pre \x7b white-space: pre-wrap; margin: 0; \x7d",
    "                    /* Preserve text positioning */",
    "                    span \x7b position: relative; \x7d",
    "                </style>",
    "                </head>" ]

/-- Text the first definition appends after the extracted `styles` slice
(lines 168-175 of the source). -/
def v1BoxBlock : String := joinLines
  [ "",
    "                    /* Preserve exact formatting */",
    "                    body * \x7b",
    "                        box-sizing: border-box !important;",
    "                        -webkit-box-sizing: border-box !important;",
    "                        -moz-box-sizing: border-box !important;",
    "                    \x7d",
    "                " ]

/-- Lines of the `<style>...</style>` block the SECOND `enhance_html_output`
definition injects (part of lines 235-247 of the source). -/
def v2StyleLines : List String :=
  [ "                <style>",
    "                    body \x7b font-family: \x27Segoe UI\x27, Tahoma, Geneva, Verdana, sans-serif; line-height: 1.6; margin: 0; padding: 20px; \x7d",
    "                    .resume-container \x7b max-width: 800px; margin: 0 auto; background: white; \x7d",
    "                    table \x7b width: 100%; border-collapse: collapse; margin: 10px 0; \x7d",
    "                    td, th \x7b padding: 8px; text-align: left; vertical-align: top; \x7d",
    "                    h1, h2, h3 \x7b color: #333; margin-top: 20px; margin-bottom: 10px; \x7d",
    "                    p \x7b margin: 8px 0; \x7d",
    "                    ul, ol \x7b margin: 8px 0; padding-left: 20px; \x7d",
    "                    .page-break \x7b page-break-before: always; \x7d",
    "                </style>" ]

/-- The injected CSS style block of the second definition, on its own. -/
def v2StyleBlock : String := joinLines v2StyleLines

/-- Replacement text the second `enhance_html_output` definition substitutes
for `<head>` (lines 235-247 of the source). -/
def v2HeadRepl : String := joinLines
  ([ "<head>",
     "                <meta charset=\"UTF-8\">",
     "                <meta name=\"viewport\" content=\"width=device-width, initial-scale=1.0\">" ]
   ++ v2StyleLines)

/-- First (shadowed) `enhance_html_output` definition, lines 127-187, as a
transform on the file content: replace `</head>` with the style block,
then, when a `<style>...</style>` pair is present, append the box-sizing
block after the first style slice wherever that slice occurs. -/
def enhance_html_output_v1 (content : List Char) : List Char :=
  let c1 := pyReplace "</head>".data v1HeadRepl.data content
  if occursB "<style>".data c1 && occursB "</style>".data c1 then
    let start := (pyFind "<style>".data c1).getD 0 + 7
    let stop := (pyFind "</style>".data c1).getD 0
    let styles := (c1.drop start).take (stop - start)
    pyReplace styles (styles ++ v1BoxBlock.data) c1
  else c1

/-- Second (effective) `enhance_html_output` definition, lines 226-254, as a
transform on the file content: replace `<head>` with head, meta tags and
the injected style block. -/
def enhance_html_output_v2 (content : List Char) : List Char :=
  pyReplace "<head>".data v2HeadRepl.data content

/-- The `class LibreOfficeConverter` body binds `enhance_html_output` twice,
in this source order; Python executes the class body sequentially, so the
later binding wins. -/
def classMethodDefs : List (String × (List Char → List Char)) :=
  [("enhance_html_output", enhance_html_output_v1),
   ("enhance_html_output", enhance_html_output_v2)]

/-- Sequential class-dictionary binding: the last definition with the
given name is the one bound on the class. -/
def resolveMethod (tbl : List (String × (List Char → List Char)))
    (n : String) : Option (List Char → List Char) :=
  tbl.foldl (fun acc kf => if kf.1 = n then some kf.2 else acc) none

/-- The method actually bound on `LibreOfficeConverter`. -/
def enhance_html_output : List Char → List Char :=
  (resolveMethod classMethodDefs "enhance_html_output").getD (fun c => c)

/-- Effect of `self.enhance_html_output(html_path)` on the content of the
html temp file: the method reads, transforms and rewrites the file, and
catches its own exceptions, leaving the file unchanged when its file IO
fails (`readOk = false`). -/
def enhanceFile (content : List Char) (readOk : Bool) : List Char :=
  if readOk then enhance_html_output content else content

/-!
Converter operations

Each UNO call site is modelled by one oracle field of `UnoEnv`:
`connect` is the trace of bridge connection attempts consumed by
`get_uno_context`; the Bool fields say whether the corresponding remote
call completes (`true`) or raises (`false`).  `propsOk` covers the
`DocumentProperties` attribute writes of `docx_to_html`; `html_to_docx`
performs no such writes and ignores the field.
-/

structure UnoEnv where
  connect : List Bool
  desktopOk : Bool
  loadOk : Bool
  propsOk : Bool
  storeOk : Bool
  closeOk : Bool
deriving DecidableEq

/-- Outcome of a Python computation: normal return, a raised exception
(with its message), or no return at all (the unbounded reconnect loop). -/
inductive PyOutcome (α : Type) where
  | ok : α → PyOutcome α
  | exn : List Char → PyOutcome α
  | hang : PyOutcome α
deriving DecidableEq

/-- All remote calls issued by `docx_to_html` after the bridge is up. -/
def allUnoOk (e : UnoEnv) : Bool :=
  e.desktopOk && e.loadOk && e.propsOk && e.storeOk && e.closeOk

/-- Body of `LibreOfficeConverter.docx_to_html` (lines 78-125) before its
`except` clause: the outcome, paired with the final content of the html
temp file.  `exported` is the content that `storeToURL` writes;
the file starts out empty (created by `NamedTemporaryFile`), and
`enhance_html_output` runs only after a successful `close`. -/
def docx_to_html_raw (e : UnoEnv) (exported : List Char) (enhOk : Bool) :
    PyOutcome Bool × List Char :=
  if (get_uno_context e.connect).isNone then (.hang, [])
  else if !e.desktopOk then (.exn "createInstanceWithContext failed".data, [])
  else if !e.loadOk then (.exn "loadComponentFromURL failed".data, [])
  else if !e.propsOk then (.exn "DocumentProperties failed".data, [])
  else if !e.storeOk then (.exn "storeToURL failed".data, [])
  else if !e.closeOk then (.exn "close failed".data, exported)
  else (.ok true, enhanceFile exported enhOk)

/-- Method `LibreOfficeConverter.docx_to_html` with its `except Exception` clause:
any raised exception is caught and turned into the return value `False`;
`none` models the non-returning case (bridge never connects). -/
def docx_to_html (e : UnoEnv) (exported : List Char) (enhOk : Bool) :
    Option (Bool × List Char) :=
  match docx_to_html_raw e exported enhOk with
  | (.hang, _) => none
  | (.exn _, c) => some (false, c)
  | (.ok b, c) => some (b, c)

/-- All remote calls issued by `html_to_docx` after the bridge is up
(no `DocumentProperties` writes here). -/
def allUnoOk2 (e : UnoEnv) : Bool :=
  e.desktopOk && e.loadOk && e.storeOk && e.closeOk

/-- Body of `LibreOfficeConverter.html_to_docx` (lines 189-224) before its
`except` clause: the outcome, paired with whether the docx temp file was
written by `storeToURL`.  `apply_template_styles` catches its own
exceptions and its body is `pass`, so the optional template changes
nothing. -/
def html_to_docx_raw (e : UnoEnv) (templatePath : Option (List Char))
    (templateExists : Bool) : PyOutcome Bool × Bool :=
  if (get_uno_context e.connect).isNone then (.hang, false)
  else if !e.desktopOk then (.exn "createInstanceWithContext failed".data, false)
  else if !e.loadOk then (.exn "loadComponentFromURL failed".data, false)
  else if !e.storeOk then (.exn "storeToURL failed".data, false)
  else if !e.closeOk then (.exn "close failed".data, true)
  else (.ok true, true)

/-- Method `LibreOfficeConverter.html_to_docx` with its `except Exception` clause. -/
def html_to_docx (e : UnoEnv) (templatePath : Option (List Char))
    (templateExists : Bool) : Option (Bool × Bool) :=
  match html_to_docx_raw e templatePath templateExists with
  | (.hang, _) => none
  | (.exn _, w) => some (false, w)
  | (.ok b, w) => some (b, w)

/-!
HTTP layer

Each handler is modelled as a function from the request data and an
oracle environment to an optional `HandlerOut` (`none` = the handler
never returns because the bridge reconnect loop never succeeds).
Temp files are numbered in order of creation within the request
(`tempfile.NamedTemporaryFile(delete=False)` creates the file at once);
`created` and `deleted` record the `NamedTemporaryFile` and `os.unlink`
calls in order, and `conversions` counts the calls into the converter.
The handlers take the function `hashFn` as a parameter standing for
`hashlib.sha256(x.encode()).hexdigest()`, which is library code, not
code of this repository.
-/

/-- Per-file entry of the batch response (`filename`/`success`/`html`/`hash`
on success, `filename`/`success`/`error` on failure). -/
inductive BatchEntry where
  | ok : List Char → List Char → List Char → BatchEntry
  | fail : List Char → List Char → BatchEntry
deriving DecidableEq

/-- JSON (or file) body of a response. -/
inductive Resp where
  | jsonOk : List Char → List Char → Resp
  | jsonErr : List Char → Resp
  | fileResp : Resp
  | healthResp : List Char → List Char → Nat → Resp
  | batchResp : List BatchEntry → Nat → Resp
deriving DecidableEq

structure HandlerOut where
  status : Nat
  body : Resp
  created : List Nat
  deleted : List Nat
  conversions : Nat
deriving DecidableEq

/-- Endpoint `GET /health` (lines 268-275): unconditionally HTTP 200 with
`status: healthy`; it consults neither the converter nor the bridge. -/
def health_check (now : Nat) : HandlerOut :=
  ⟨200, .healthResp "healthy".data "libreoffice-converter".data now, [], [], 0⟩

structure DocxToHtmlReq where
  hasFile : Bool
  filename : List Char

structure DocxToHtmlEnv where
  uno : UnoEnv
  exported : List Char
  enhOk : Bool
  saveRaises : Bool
  readRaises : Bool

/-- Endpoint `POST /convert/docx-to-html` (lines 277-322).  The html temp file is
created with `delete=False` and nothing removes it before the
`os.path.exists` check, so that check is equivalent to `success`. -/
def convert_docx_to_html (hashFn : List Char → List Char)
    (req : DocxToHtmlReq) (env : DocxToHtmlEnv) : Option HandlerOut :=
  if !req.hasFile then
    some ⟨400, .jsonErr "No file provided".data, [], [], 0⟩
  else if req.filename = [] then
    some ⟨400, .jsonErr "No file selected".data, [], [], 0⟩
  else if env.saveRaises then
    some ⟨500, .jsonErr "file save failed".data, [0], [], 0⟩
  else
    match docx_to_html env.uno env.exported env.enhOk with
    | none => none
    | some (success, content) =>
      if success then
        if env.readRaises then
          some ⟨500, .jsonErr "read failed".data, [0, 1], [], 1⟩
        else
          some ⟨200, .jsonOk content (hashFn content), [0, 1], [0, 1], 1⟩
      else
        some ⟨500, .jsonErr "Conversion failed".data, [0, 1], [], 1⟩

structure HtmlToDocxReq where
  jsonTruthy : Bool
  hasHtml : Bool
  html : List Char
  template : Option (List Char)

structure HtmlToDocxEnv where
  uno : UnoEnv
  writeRaises : Bool
  templateExists : Bool

/-- Endpoint `POST /convert/html-to-docx` (lines 324-362).  On success the docx is
returned with `send_file`; neither temp file is ever unlinked.  The docx
temp file exists regardless of the conversion (created with
`delete=False`), so the `os.path.exists` check is equivalent to
`success`. -/
def convert_html_to_docx (req : HtmlToDocxReq) (env : HtmlToDocxEnv) :
    Option HandlerOut :=
  if !req.jsonTruthy || !req.hasHtml then
    some ⟨400, .jsonErr "No HTML content provided".data, [], [], 0⟩
  else if env.writeRaises then
    some ⟨500, .jsonErr "temp write failed".data, [0], [], 0⟩
  else
    let templateName := req.template.getD "default".data
    let templatePath :=
      if templateName ≠ "default".data then
        some ("/app/templates/".data ++ templateName ++ ".dotx".data)
      else none
    match html_to_docx env.uno templatePath env.templateExists with
    | none => none
    | some (success, _written) =>
      if success then
        some ⟨200, .fileResp, [0, 1], [], 1⟩
      else
        some ⟨500, .jsonErr "Conversion failed".data, [0, 1], [], 1⟩

structure BatchItem where
  filename : List Char
  uno : UnoEnv
  exported : List Char
  enhOk : Bool
  readRaises : Bool

/-- Loop body of `POST /convert/batch` (lines 372-409): file `i` uses temp
files `2*i` and `2*i + 1`; both are unlinked at the end of each
iteration, on the success and on the failure branch alike; a raised read
exception aborts the loop before the unlinks and is caught by the outer
`except`. -/
def batch_go (hashFn : List Char → List Char) :
    List BatchItem → Nat → List BatchEntry → List Nat → List Nat → Nat →
    Option HandlerOut
  | [], _, results, created, deleted, convs =>
    some ⟨200, .batchResp results results.length, created, deleted, convs⟩
  | item :: rest, i, results, created, deleted, convs =>
    let created := created ++ [2 * i, 2 * i + 1]
    match docx_to_html item.uno item.exported item.enhOk with
    | none => none
    | some (success, content) =>
      if success then
        if item.readRaises then
          some ⟨500, .jsonErr "read failed".data, created, deleted, convs + 1⟩
        else
          batch_go hashFn rest (i + 1)
            (results ++ [.ok item.filename content (hashFn content)])
            created (deleted ++ [2 * i, 2 * i + 1]) (convs + 1)
      else
        batch_go hashFn rest (i + 1)
          (results ++ [.fail item.filename "Conversion failed".data])
          created (deleted ++ [2 * i, 2 * i + 1]) (convs + 1)

/-- Endpoint `POST /convert/batch` (lines 364-413). -/
def batch_convert (hashFn : List Char → List Char) (files : List BatchItem) :
    Option HandlerOut :=
  if files.isEmpty then
    some ⟨400, .jsonErr "No files provided".data, [], [], 0⟩
  else batch_go hashFn files 0 [] [] [] 0

/-!
Characterization lemmas
-/

/-- Content of the html temp file after `docx_to_html` returns, per failure
point (transcribes the branch structure of `docx_to_html_raw`). -/
def dContent (e : UnoEnv) (exported : List Char) (enhOk : Bool) : List Char :=
  if !e.desktopOk || !e.loadOk || !e.propsOk || !e.storeOk then []
  else if !e.closeOk then exported
  else enhanceFile exported enhOk

lemma docx_to_html_char (e : UnoEnv) (exported : List Char) (enhOk : Bool) :
    docx_to_html e exported enhOk =
      if (get_uno_context e.connect).isSome then
        some (allUnoOk e, dContent e exported enhOk)
      else none := by
  obtain ⟨cn, d, l, p, s, c⟩ := e
  cases hcn : get_uno_context cn <;>
    cases d <;> cases l <;> cases p <;> cases s <;> cases c <;>
    simp [docx_to_html, docx_to_html_raw, allUnoOk, dContent, hcn,
      Option.isNone, Option.isSome]

lemma html_to_docx_char (e : UnoEnv) (tp : Option (List Char)) (tex : Bool) :
    html_to_docx e tp tex =
      if (get_uno_context e.connect).isSome then
        some (allUnoOk2 e, e.desktopOk && e.loadOk && e.storeOk)
      else none := by
  obtain ⟨cn, d, l, p, s, c⟩ := e
  cases hcn : get_uno_context cn <;>
    cases d <;> cases l <;> cases s <;> cases c <;>
    simp [html_to_docx, html_to_docx_raw, allUnoOk2, hcn,
      Option.isNone, Option.isSome]

/-- Entry the batch loop appends for one uploaded file, as a function of
that file, as a function of the oracle data of that file. -/
def batchEntrySpec (hashFn : List Char → List Char) (f : BatchItem) :
    BatchEntry :=
  match docx_to_html f.uno f.exported f.enhOk with
  | some (true, content) => .ok f.filename content (hashFn content)
  | _ => .fail f.filename "Conversion failed".data

lemma batch_go_clean (hashFn : List Char → List Char) :
    ∀ (files : List BatchItem) (i : Nat) (results : List BatchEntry)
      (created deleted : List Nat) (convs : Nat),
      (∀ f ∈ files, (get_uno_context f.uno.connect).isSome = true ∧
        (allUnoOk f.uno = true → f.readRaises = false)) →
      batch_go hashFn files i results created deleted convs =
        some ⟨200, .batchResp (results ++ files.map (batchEntrySpec hashFn))
            (results.length + files.length),
          created ++ List.range' (2 * i) (2 * files.length),
          deleted ++ List.range' (2 * i) (2 * files.length),
          convs + files.length⟩ := by
  intro files
  induction files with
  | nil => intro i results created deleted convs _; simp [batch_go]
  | cons item rest ih =>
    intro i results created deleted convs hall
    obtain ⟨hsome, hread⟩ := hall item (by simp)
    have hrest : ∀ f ∈ rest, (get_uno_context f.uno.connect).isSome = true ∧
        (allUnoOk f.uno = true → f.readRaises = false) := by
      intro f hf; exact hall f (by simp [hf])
    rw [batch_go, docx_to_html_char, if_pos hsome]
    have hrange : (2 * i) :: (2 * i + 1) :: List.range' (2 * (i + 1)) (2 * rest.length)
        = List.range' (2 * i) (2 * (rest.length + 1)) := by
      have h2 : 2 * (rest.length + 1) = (2 * rest.length + 1) + 1 := by ring
      have h3 : 2 * (i + 1) = (2 * i + 1) + 1 := by ring
      rw [h2, List.range'_succ, List.range'_succ, h3]
    cases hok : allUnoOk item.uno with
    | true =>
      have hread' := hread hok
      simp only [hread', if_true, Bool.false_eq_true, if_false]
      rw [ih (i + 1) _ _ _ _ hrest]
      have hentry : batchEntrySpec hashFn item =
          .ok item.filename (dContent item.uno item.exported item.enhOk)
            (hashFn (dContent item.uno item.exported item.enhOk)) := by
        rw [batchEntrySpec, docx_to_html_char, if_pos hsome, hok]
      simp [hentry, ← hrange, List.append_assoc]
      constructor
      · omega
      · omega
    | false =>
      simp only [Bool.false_eq_true, if_false]
      rw [ih (i + 1) _ _ _ _ hrest]
      have hentry : batchEntrySpec hashFn item =
          .fail item.filename "Conversion failed".data := by
        rw [batchEntrySpec, docx_to_html_char, if_pos hsome, hok]
      simp [hentry, ← hrange, List.append_assoc]
      constructor
      · omega
      · omega

/-!
Claim theorems
-/

/-- C1 counterexample: on the connection-attempt trace
`[false, false, true]` the code makes 3 attempts (two supervisor restarts
and reconnects), refuting "retries the connection at most once; no
retries beyond a single bridge reconnect attempt", which allows at most
2 attempts. -/
theorem get_uno_context_single_retry_cex :
    get_uno_context [false, false, true] = some 3 ∧ ¬ (3 ≤ 2) := by decide

/-- C1 amended: on each connection failure `get_uno_context` restarts the
supervisor and retries recursively with no bound: it makes `N + 1`
attempts when the first `N` attempts fail and the next succeeds, for
every `N`, and it never returns when no attempt succeeds. -/
theorem get_uno_context_retries_unbounded :
    (∀ N : Nat, get_uno_context (List.replicate N false ++ [true]) = some (N + 1)) ∧
    (∀ N : Nat, get_uno_context (List.replicate N false) = none) := by
  constructor
  · intro N
    induction N with
    | zero => rfl
    | succ n ih => simp [List.replicate_succ, get_uno_context, ih]
  · intro N
    induction N with
    | zero => rfl
    | succ n ih => simp [List.replicate_succ, get_uno_context, ih]

/-- C8: every `GET /health` request yields HTTP 200 with body
`status: healthy` (plus the service name and timestamp); the handler
consults neither the LibreOffice process nor the UNO bridge, so the
answer is independent of their reachability. -/
theorem health_always_healthy :
    ∀ now : Nat, health_check now =
      ⟨200, .healthResp "healthy".data "libreoffice-converter".data now,
        [], [], 0⟩ :=
  fun _ => rfl

/-- C9: the class body binds `enhance_html_output` twice and the second
definition wins, so the bound method performs exactly the `<head>`
replacement of the second definition; on a sample input the shadowed
first definition would inject its "Preserve exact dimensions" style
block, while the bound method does not. -/
theorem enhance_shadowing :
    resolveMethod classMethodDefs "enhance_html_output" =
      some enhance_html_output_v2 ∧
    (∀ c : List Char,
      enhance_html_output c = pyReplace "<head>".data v2HeadRepl.data c) ∧
    occursB "Preserve exact dimensions".data
      (enhance_html_output_v1 "<style>A</style></head>".data) = true ∧
    occursB "Preserve exact dimensions".data
      (enhance_html_output_v2 "<style>A</style></head>".data) = false :=
  ⟨rfl, fun _ => rfl, by decide, by decide⟩

/-- C10: `docx_to_html` and `html_to_docx` catch every exception raised by
the UNO calls and surface it as the return value `False`; they return
`True` exactly when all the remote calls complete (and the bridge
connects at all), and a failure inside `enhance_html_output` (modelled
by `enh`) does not change the returned flag. -/
theorem converter_no_exceptions :
    (∀ (e : UnoEnv) (ex m c : List Char) (enh : Bool),
      docx_to_html_raw e ex enh = (.exn m, c) →
      docx_to_html e ex enh = some (false, c)) ∧
    (∀ (e : UnoEnv) (tp : Option (List Char)) (tex : Bool) (m : List Char)
      (w : Bool),
      html_to_docx_raw e tp tex = (.exn m, w) →
      html_to_docx e tp tex = some (false, w)) ∧
    (∀ (e : UnoEnv) (ex : List Char) (enh : Bool),
      (docx_to_html e ex enh).map Prod.fst =
        if (get_uno_context e.connect).isSome then some (allUnoOk e)
        else none) ∧
    (∀ (e : UnoEnv) (tp : Option (List Char)) (tex : Bool),
      (html_to_docx e tp tex).map Prod.fst =
        if (get_uno_context e.connect).isSome then some (allUnoOk2 e)
        else none) ∧
    (∀ (e : UnoEnv) (ex : List Char) (enh1 enh2 : Bool),
      (docx_to_html e ex enh1).map Prod.fst =
        (docx_to_html e ex enh2).map Prod.fst) := by
  refine ⟨?_, ?_, ?_, ?_, ?_⟩
  · intro e ex m c enh h
    simp [docx_to_html, h]
  · intro e tp tex m w h
    simp [html_to_docx, h]
  · intro e ex enh
    rw [docx_to_html_char]
    split <;> simp
  · intro e tp tex
    rw [html_to_docx_char]
    split <;> simp
  · intro e ex enh1 enh2
    rw [docx_to_html_char, docx_to_html_char]
    split <;> simp

/-- Witness for `converter_no_exceptions`: with a bridge that connects and
a failing `createInstanceWithContext`, the body raises and the method
returns `False`. -/
theorem converter_no_exceptions_witness :
    docx_to_html_raw ⟨[true], false, true, true, true, true⟩ [] true =
      (.exn "createInstanceWithContext failed".data, []) ∧
    docx_to_html ⟨[true], false, true, true, true, true⟩ [] true =
      some (false, []) :=
  ⟨by decide,
   converter_no_exceptions.1 ⟨[true], false, true, true, true, true⟩ []
     "createInstanceWithContext failed".data [] true (by decide)⟩

lemma convert_docx_to_html_char (H : List Char → List Char)
    (req : DocxToHtmlReq) (env : DocxToHtmlEnv) :
    convert_docx_to_html H req env =
      if !req.hasFile then
        some ⟨400, .jsonErr "No file provided".data, [], [], 0⟩
      else if req.filename = [] then
        some ⟨400, .jsonErr "No file selected".data, [], [], 0⟩
      else if env.saveRaises then
        some ⟨500, .jsonErr "file save failed".data, [0], [], 0⟩
      else if !(get_uno_context env.uno.connect).isSome then none
      else if allUnoOk env.uno then
        if env.readRaises then
          some ⟨500, .jsonErr "read failed".data, [0, 1], [], 1⟩
        else
          some ⟨200, .jsonOk (dContent env.uno env.exported env.enhOk)
            (H (dContent env.uno env.exported env.enhOk)), [0, 1], [0, 1], 1⟩
      else some ⟨500, .jsonErr "Conversion failed".data, [0, 1], [], 1⟩ := by
  unfold convert_docx_to_html
  rw [docx_to_html_char]
  rcases req.hasFile <;> rcases hfn : req.filename <;>
    rcases env.saveRaises <;>
    rcases hcn : (get_uno_context env.uno.connect).isSome <;>
    rcases hok : allUnoOk env.uno <;> rcases env.readRaises <;>
    simp [hfn, hcn, hok]

lemma convert_html_to_docx_char (req : HtmlToDocxReq) (env : HtmlToDocxEnv) :
    convert_html_to_docx req env =
      if !req.jsonTruthy || !req.hasHtml then
        some ⟨400, .jsonErr "No HTML content provided".data, [], [], 0⟩
      else if env.writeRaises then
        some ⟨500, .jsonErr "temp write failed".data, [0], [], 0⟩
      else if !(get_uno_context env.uno.connect).isSome then none
      else if allUnoOk2 env.uno then some ⟨200, .fileResp, [0, 1], [], 1⟩
      else some ⟨500, .jsonErr "Conversion failed".data, [0, 1], [], 1⟩ := by
  unfold convert_html_to_docx
  simp only [html_to_docx_char]
  rcases req.jsonTruthy <;> rcases req.hasHtml <;> rcases env.writeRaises <;>
    rcases hcn : (get_uno_context env.uno.connect).isSome <;>
    rcases hok : allUnoOk2 env.uno <;>
    simp [hcn, hok]

/-- C5: a docx-to-html request without a `file` part or with an empty
filename, an html-to-docx request whose JSON lacks the `html` key, and a
batch request with an empty files list all get HTTP 400 with a JSON
error, with no temp files created and no conversion attempted. -/
theorem missing_input_400 :
    (∀ (H : List Char → List Char) (req : DocxToHtmlReq)
      (env : DocxToHtmlEnv), req.hasFile = false →
      convert_docx_to_html H req env =
        some ⟨400, .jsonErr "No file provided".data, [], [], 0⟩) ∧
    (∀ (H : List Char → List Char) (req : DocxToHtmlReq)
      (env : DocxToHtmlEnv), req.filename = [] →
      convert_docx_to_html H req env =
        some ⟨400, .jsonErr "No file provided".data, [], [], 0⟩ ∨
      convert_docx_to_html H req env =
        some ⟨400, .jsonErr "No file selected".data, [], [], 0⟩) ∧
    (∀ (req : HtmlToDocxReq) (env : HtmlToDocxEnv), req.hasHtml = false →
      convert_html_to_docx req env =
        some ⟨400, .jsonErr "No HTML content provided".data, [], [], 0⟩) ∧
    (∀ H : List Char → List Char, batch_convert H [] =
      some ⟨400, .jsonErr "No files provided".data, [], [], 0⟩) := by
  refine ⟨?_, ?_, ?_, ?_⟩
  · intro H req env h
    rw [convert_docx_to_html_char, h]
    rfl
  · intro H req env h
    rw [convert_docx_to_html_char, h]
    cases hf : req.hasFile
    · left; rfl
    · right; rfl
  · intro req env h
    rw [convert_html_to_docx_char, h]
    simp
  · intro H
    rfl

/-- Witness for `missing_input_400` at concrete requests. -/
theorem missing_input_400_witness :
    convert_docx_to_html (fun _ => []) ⟨false, "a".data⟩
      ⟨⟨[true], true, true, true, true, true⟩, [], true, false, false⟩ =
      some ⟨400, .jsonErr "No file provided".data, [], [], 0⟩ ∧
    convert_html_to_docx ⟨true, false, [], none⟩
      ⟨⟨[true], true, true, true, true, true⟩, false, false⟩ =
      some ⟨400, .jsonErr "No HTML content provided".data, [], [], 0⟩ :=
  ⟨missing_input_400.1 (fun _ => []) ⟨false, "a".data⟩
     ⟨⟨[true], true, true, true, true, true⟩, [], true, false, false⟩ rfl,
   missing_input_400.2.2.1 ⟨true, false, [], none⟩
     ⟨⟨[true], true, true, true, true, true⟩, false, false⟩ rfl⟩

/-- C2 counterexample: a docx-to-html request whose conversion fails (the
`loadComponentFromURL` call raises) produces a 500 response after
creating temp files `0` and `1`, and deletes neither: the `os.unlink`
calls sit only on the success branch. -/
theorem temp_cleanup_cex :
    convert_docx_to_html (fun _ => []) ⟨true, "a".data⟩
      ⟨⟨[true], true, false, true, true, true⟩, [], true, false, false⟩ =
      some ⟨500, .jsonErr "Conversion failed".data, [0, 1], [], 1⟩ := by
  decide

lemma batch_go_cleanup (H : List Char → List Char) :
    ∀ (files : List BatchItem) (i : Nat) (results : List BatchEntry)
      (created deleted : List Nat) (convs : Nat) (out : HandlerOut),
      created = deleted →
      batch_go H files i results created deleted convs = some out →
      out.status = 200 → out.deleted = out.created := by
  intro files
  induction files with
  | nil =>
    intro i results created deleted convs out hcd h h200
    rw [batch_go] at h
    obtain rfl := Option.some.inj h
    exact hcd.symm
  | cons item rest ih =>
    intro i results created deleted convs out hcd h h200
    simp only [batch_go] at h
    rcases hcv : docx_to_html item.uno item.exported item.enhOk with _ | ⟨success, content⟩
    · rw [hcv] at h
      cases h
    · rw [hcv] at h
      cases success with
      | false =>
        simp only [Bool.false_eq_true, if_false] at h
        exact ih (i + 1) _ _ _ _ _ (by rw [hcd]) h h200
      | true =>
        simp only [if_true] at h
        cases hrr : item.readRaises with
        | true =>
          rw [hrr] at h
          simp only [if_true] at h
          obtain rfl := Option.some.inj h
          simp at h200
        | false =>
          rw [hrr] at h
          simp only [Bool.false_eq_true, if_false] at h
          exact ih (i + 1) _ _ _ _ _ (by rw [hcd]) h h200

/-- C2 amended: temp files are all deleted exactly on the success paths —
a 200 response of docx-to-html deletes both temp files, and a 200 batch
response deletes every temp file it created; but a 500 docx-to-html
response deletes none of its temp files, and html-to-docx deletes none
of its temp files on any path. -/
theorem temp_cleanup_amended :
    (∀ (H : List Char → List Char) (req : DocxToHtmlReq)
      (env : DocxToHtmlEnv) (out : HandlerOut),
      convert_docx_to_html H req env = some out →
      out.status = 200 → out.deleted = out.created) ∧
    (∀ (H : List Char → List Char) (req : DocxToHtmlReq)
      (env : DocxToHtmlEnv) (out : HandlerOut),
      convert_docx_to_html H req env = some out →
      out.status = 500 → out.deleted = []) ∧
    (∀ (req : HtmlToDocxReq) (env : HtmlToDocxEnv) (out : HandlerOut),
      convert_html_to_docx req env = some out → out.deleted = []) ∧
    (∀ (H : List Char → List Char) (files : List BatchItem)
      (out : HandlerOut), batch_convert H files = some out →
      out.status = 200 → out.deleted = out.created) := by
  refine ⟨?_, ?_, ?_, ?_⟩
  · intro H req env out h h200
    rw [convert_docx_to_html_char] at h
    repeat' split at h
    all_goals cases h
    all_goals simp_all
  · intro H req env out h h500
    rw [convert_docx_to_html_char] at h
    repeat' split at h
    all_goals cases h
    all_goals simp_all
  · intro req env out h
    rw [convert_html_to_docx_char] at h
    repeat' split at h
    all_goals cases h
    all_goals simp_all
  · intro H files out h h200
    unfold batch_convert at h
    by_cases hfe : files.isEmpty
    · rw [if_pos hfe] at h
      obtain rfl := Option.some.inj h
      simp at h200
    · rw [if_neg hfe] at h
      exact batch_go_cleanup H files 0 [] [] [] 0 out rfl h h200

/-- Witness for `temp_cleanup_amended`: a successful docx-to-html request
deletes exactly the temp files it created. -/
theorem temp_cleanup_amended_witness :
    convert_docx_to_html (fun _ => []) ⟨true, "a".data⟩
      ⟨⟨[true], true, true, true, true, true⟩, [], false, false, false⟩ =
      some ⟨200, .jsonOk [] [], [0, 1], [0, 1], 1⟩ ∧
    (⟨200, .jsonOk [] [], [0, 1], [0, 1], 1⟩ : HandlerOut).deleted =
      (⟨200, .jsonOk [] [], [0, 1], [0, 1], 1⟩ : HandlerOut).created :=
  ⟨by decide,
   temp_cleanup_amended.1 (fun _ => []) ⟨true, "a".data⟩
     ⟨⟨[true], true, true, true, true, true⟩, [], false, false, false⟩
     ⟨200, .jsonOk [] [], [0, 1], [0, 1], 1⟩ (by decide) rfl⟩

lemma batch_go_status (H : List Char → List Char) :
    ∀ (files : List BatchItem) (i : Nat) (results : List BatchEntry)
      (created deleted : List Nat) (convs : Nat) (out : HandlerOut),
      batch_go H files i results created deleted convs = some out →
      (out.status = 200 ∧ ∃ res n, out.body = .batchResp res n) ∨
      (out.status = 500 ∧ ∃ m, out.body = .jsonErr m) := by
  intro files
  induction files with
  | nil =>
    intro i results created deleted convs out h
    rw [batch_go] at h
    obtain rfl := Option.some.inj h
    exact Or.inl ⟨rfl, results, results.length, rfl⟩
  | cons item rest ih =>
    intro i results created deleted convs out h
    simp only [batch_go] at h
    rcases hcv : docx_to_html item.uno item.exported item.enhOk with _ | ⟨success, content⟩
    · rw [hcv] at h
      cases h
    · rw [hcv] at h
      cases success with
      | false =>
        simp only [Bool.false_eq_true, if_false] at h
        exact ih (i + 1) _ _ _ _ _ h
      | true =>
        simp only [if_true] at h
        cases hrr : item.readRaises with
        | true =>
          rw [hrr] at h
          simp only [if_true] at h
          obtain rfl := Option.some.inj h
          exact Or.inr ⟨rfl, "read failed".data, rfl⟩
        | false =>
          rw [hrr] at h
          simp only [Bool.false_eq_true, if_false] at h
          exact ih (i + 1) _ _ _ _ _ h

/-- C4 counterexample: a batch request whose single file fails to convert
(its `loadComponentFromURL` raises) gets an HTTP 200 response with a
per-file error entry, not the HTTP 500 JSON error the claim requires for
every internal failure. -/
theorem error_500_cex :
    batch_convert (fun _ => [])
      [⟨"f".data, ⟨[true], true, false, true, true, true⟩, [], true, false⟩] =
      some ⟨200, .batchResp [.fail "f".data "Conversion failed".data] 1,
        [0, 1], [0, 1], 1⟩ ∧ ¬ (200 : Nat) = 500 := by
  constructor
  · decide
  · decide

/-- C4 amended: exceptions raised while handling a request and single-file
conversion failures are surfaced as HTTP 500 with a JSON error, and
every non-200 response of any endpoint is a JSON error with status 400
or 500 (nothing escapes as an unhandled exception); but in the batch
endpoint a per-file conversion failure is reported inside an HTTP 200
response as a per-file error entry, not as a 500. -/
theorem error_500_amended :
    (∀ (H : List Char → List Char) (req : DocxToHtmlReq)
      (env : DocxToHtmlEnv) (out : HandlerOut),
      convert_docx_to_html H req env = some out → out.status ≠ 200 →
      (out.status = 400 ∨ out.status = 500) ∧
        ∃ m, out.body = .jsonErr m) ∧
    (∀ (H : List Char → List Char) (req : DocxToHtmlReq)
      (env : DocxToHtmlEnv),
      req.hasFile = true → req.filename ≠ [] → env.saveRaises = false →
      (get_uno_context env.uno.connect).isSome = true →
      allUnoOk env.uno = false →
      convert_docx_to_html H req env =
        some ⟨500, .jsonErr "Conversion failed".data, [0, 1], [], 1⟩) ∧
    (∀ (req : HtmlToDocxReq) (env : HtmlToDocxEnv) (out : HandlerOut),
      convert_html_to_docx req env = some out → out.status ≠ 200 →
      (out.status = 400 ∨ out.status = 500) ∧
        ∃ m, out.body = .jsonErr m) ∧
    (∀ (req : HtmlToDocxReq) (env : HtmlToDocxEnv),
      req.jsonTruthy = true → req.hasHtml = true → env.writeRaises = false →
      (get_uno_context env.uno.connect).isSome = true →
      allUnoOk2 env.uno = false →
      convert_html_to_docx req env =
        some ⟨500, .jsonErr "Conversion failed".data, [0, 1], [], 1⟩) ∧
    (∀ (H : List Char → List Char) (files : List BatchItem)
      (out : HandlerOut),
      batch_convert H files = some out → out.status ≠ 200 →
      (out.status = 400 ∨ out.status = 500) ∧
        ∃ m, out.body = .jsonErr m) ∧
    (∀ (H : List Char → List Char) (files : List BatchItem),
      files ≠ [] →
      (∀ f ∈ files, (get_uno_context f.uno.connect).isSome = true ∧
        (allUnoOk f.uno = true → f.readRaises = false)) →
      ∃ out, batch_convert H files = some out ∧ out.status = 200) := by
  refine ⟨?_, ?_, ?_, ?_, ?_, ?_⟩
  · intro H req env out h hne
    rw [convert_docx_to_html_char] at h
    repeat' split at h
    all_goals cases h
    all_goals simp_all
  · intro H req env h1 h2 h3 h4 h5
    rw [convert_docx_to_html_char, h1, h3, h4, h5]
    simp [h2]
  · intro req env out h hne
    rw [convert_html_to_docx_char] at h
    repeat' split at h
    all_goals cases h
    all_goals simp_all
  · intro req env h1 h2 h3 h4 h5
    rw [convert_html_to_docx_char, h1, h2, h3, h4, h5]
    simp
  · intro H files out h hne
    unfold batch_convert at h
    by_cases hfe : files.isEmpty
    · rw [if_pos hfe] at h
      obtain rfl := Option.some.inj h
      exact ⟨Or.inl rfl, "No files provided".data, rfl⟩
    · rw [if_neg hfe] at h
      rcases batch_go_status H files 0 [] [] [] 0 out h with ⟨h200, _⟩ | ⟨h500, hm⟩
      · exact absurd h200 hne
      · exact ⟨Or.inr h500, hm⟩
  · intro H files hne hall
    refine ⟨⟨200, .batchResp (files.map (batchEntrySpec H)) files.length,
      List.range' 0 (2 * files.length), List.range' 0 (2 * files.length),
      files.length⟩, ?_, rfl⟩
    unfold batch_convert
    rw [if_neg (by simpa using hne)]
    rw [batch_go_clean H files 0 [] [] [] 0 hall]
    simp

/-- Witness for `error_500_amended`: a docx-to-html request whose
conversion fails yields exactly the 500 JSON error response. -/
theorem error_500_amended_witness :
    convert_docx_to_html (fun _ => []) ⟨true, "b".data⟩
      ⟨⟨[true], true, true, true, false, true⟩, [], true, false, false⟩ =
      some ⟨500, .jsonErr "Conversion failed".data, [0, 1], [], 1⟩ :=
  error_500_amended.2.1 (fun _ => []) ⟨true, "b".data⟩
    ⟨⟨[true], true, true, true, false, true⟩, [], true, false, false⟩
    rfl (by decide) rfl rfl rfl

lemma dContent_of_ok {e : UnoEnv} (h : allUnoOk e = true)
    (ex : List Char) (enh : Bool) : dContent e ex enh = enhanceFile ex enh := by
  obtain ⟨cn, d, l, p, s, c⟩ := e
  simp only [allUnoOk, Bool.and_eq_true] at h
  obtain ⟨⟨⟨⟨hd, hl⟩, hp⟩, hs⟩, hc⟩ := h
  subst hd hl hp hs hc
  simp [dContent]

/-- C6: a batch request over a non-empty file list that completes without
an unhandled exception (no bridge hangs, and no read-back of a
successful file raises) returns HTTP 200 whose body carries `processed` equal
to the number of files and one result entry per file, in submission
order, each entry built from the outcome of that file by `batchEntrySpec`:
the filename with `html` and its hash on success, the filename with an
error message on failure. -/
theorem batch_results_shape :
    (∀ (H : List Char → List Char) (files : List BatchItem),
      files ≠ [] →
      (∀ f ∈ files, (get_uno_context f.uno.connect).isSome = true ∧
        (allUnoOk f.uno = true → f.readRaises = false)) →
      batch_convert H files =
        some ⟨200, .batchResp (files.map (batchEntrySpec H)) files.length,
          List.range' 0 (2 * files.length), List.range' 0 (2 * files.length),
          files.length⟩) ∧
    (∀ (H : List Char → List Char) (f : BatchItem),
      (∃ html hsh, batchEntrySpec H f = .ok f.filename html hsh) ∨
      batchEntrySpec H f = .fail f.filename "Conversion failed".data) := by
  constructor
  · intro H files hne hall
    unfold batch_convert
    rw [if_neg (by simpa using hne)]
    rw [batch_go_clean H files 0 [] [] [] 0 hall]
    simp
  · intro H f
    unfold batchEntrySpec
    rcases docx_to_html f.uno f.exported f.enhOk with _ | ⟨success, content⟩
    · exact Or.inr rfl
    · cases success
      · exact Or.inr rfl
      · exact Or.inl ⟨content, H content, rfl⟩

/-- Witness for `batch_results_shape`: a two-file batch (first succeeds,
second fails) yields a 200 response with `processed = 2` and the two
entries in order. -/
theorem batch_results_shape_witness :
    batch_convert (fun _ => [])
      [⟨"a".data, ⟨[true], true, true, true, true, true⟩, [], false, false⟩,
       ⟨"b".data, ⟨[true], true, false, true, true, true⟩, [], false, false⟩] =
      some ⟨200, .batchResp
        [.ok "a".data [] [], .fail "b".data "Conversion failed".data] 2,
        [0, 1, 2, 3], [0, 1, 2, 3], 2⟩ := by
  have h := batch_results_shape.1 (fun _ => [])
    [⟨"a".data, ⟨[true], true, true, true, true, true⟩, [], false, false⟩,
     ⟨"b".data, ⟨[true], true, false, true, true, true⟩, [], false, false⟩]
    (List.cons_ne_nil _ _) (by decide)
  rw [h]
  decide

/-- C3 counterexample: a docx-to-html request that converts successfully
but whose exported HTML lacks the literal `<head>` substring (here: an
empty exported file) returns a 200 response whose `html` does not
contain the injected style block — `str.replace` found nothing to
replace. -/
theorem style_block_cex :
    convert_docx_to_html (fun _ => []) ⟨true, "a".data⟩
      ⟨⟨[true], true, true, true, true, true⟩, [], true, false, false⟩ =
      some ⟨200, .jsonOk [] [], [0, 1], [0, 1], 1⟩ ∧
    occursB v2StyleBlock.data [] = false := by
  constructor
  · decide
  · decide

/-- C3 amended: in every successful docx-to-html response, the returned
`html` contains the injected CSS style block provided the HTML exported
by LibreOffice contains the literal `<head>` substring and the
file IO of the post-processor succeeds. -/
theorem style_block_injected :
    ∀ (H : List Char → List Char) (req : DocxToHtmlReq)
      (env : DocxToHtmlEnv) (out : HandlerOut) (html hsh : List Char),
      convert_docx_to_html H req env = some out →
      out.body = .jsonOk html hsh →
      env.enhOk = true →
      occursB "<head>".data env.exported = true →
      occursB v2StyleBlock.data html = true := by
  intro H req env out html hsh h hbody henh hhead
  rw [convert_docx_to_html_char] at h
  repeat' split at h
  all_goals cases h
  all_goals cases hbody
  rename_i hok _
  rw [dContent_of_ok hok]
  rw [enhanceFile, henh, if_pos rfl]
  rw [occursB_iff]
  have hh : OccursIn "<head>".data env.exported := occursB_iff.mp hhead
  have h2 := @occursIn_pyReplace "<head>".data v2HeadRepl.data env.exported
    (by decide) hh
  have h3 : OccursIn v2StyleBlock.data v2HeadRepl.data :=
    occursB_iff.mp (by decide)
  have h4 : enhance_html_output env.exported =
      pyReplace "<head>".data v2HeadRepl.data env.exported := rfl
  rw [h4]
  exact h3.mono h2

/-- Witness for `style_block_injected`: when LibreOffice exports exactly
`<head>`, the html of the 200 response is the injected replacement text and
contains the style block. -/
theorem style_block_injected_witness :
    convert_docx_to_html (fun _ => []) ⟨true, "a".data⟩
      ⟨⟨[true], true, true, true, true, true⟩, "<head>".data, true, false,
        false⟩ =
      some ⟨200, .jsonOk v2HeadRepl.data [], [0, 1], [0, 1], 1⟩ ∧
    occursB v2StyleBlock.data v2HeadRepl.data = true :=
  ⟨by decide,
   style_block_injected (fun _ => []) ⟨true, "a".data⟩
     ⟨⟨[true], true, true, true, true, true⟩, "<head>".data, true, false,
       false⟩
     ⟨200, .jsonOk v2HeadRepl.data [], [0, 1], [0, 1], 1⟩
     v2HeadRepl.data [] (by decide) rfl rfl (by decide)⟩

/-!
Hash plumbing (C7)

`stripHashOut` blanks every `hash` field of a response; the handlers are
otherwise unaffected by the hash function, which shows the hash is used
for nothing besides the response field.
-/

def stripHashEntry : BatchEntry → BatchEntry
  | .ok fn html _ => .ok fn html []
  | e => e

def stripHashResp : Resp → Resp
  | .jsonOk html _ => .jsonOk html []
  | .batchResp res n => .batchResp (res.map stripHashEntry) n
  | r => r

def stripHashOut (o : HandlerOut) : HandlerOut :=
  ⟨o.status, stripHashResp o.body, o.created, o.deleted, o.conversions⟩

lemma batch_go_hash (H : List Char → List Char) :
    ∀ (files : List BatchItem) (i : Nat) (results : List BatchEntry)
      (created deleted : List Nat) (convs : Nat) (out : HandlerOut)
      (res : List BatchEntry) (n : Nat),
      (∀ fn html hsh, BatchEntry.ok fn html hsh ∈ results → hsh = H html) →
      batch_go H files i results created deleted convs = some out →
      out.body = .batchResp res n →
      ∀ fn html hsh, BatchEntry.ok fn html hsh ∈ res → hsh = H html := by
  intro files
  induction files with
  | nil =>
    intro i results created deleted convs out res n hinv h hbody
    rw [batch_go] at h
    obtain rfl := Option.some.inj h
    obtain ⟨rfl, rfl⟩ := Resp.batchResp.inj hbody.symm
    exact hinv
  | cons item rest ih =>
    intro i results created deleted convs out res n hinv h hbody
    simp only [batch_go] at h
    rcases hcv : docx_to_html item.uno item.exported item.enhOk with _ | ⟨success, content⟩
    · rw [hcv] at h
      cases h
    · rw [hcv] at h
      cases success with
      | false =>
        simp only [Bool.false_eq_true, if_false] at h
        refine ih (i + 1) _ _ _ _ _ _ _ ?_ h hbody
        intro fn html hsh hmem
        rcases List.mem_append.mp hmem with hmem | hmem
        · exact hinv fn html hsh hmem
        · simp at hmem
      | true =>
        simp only [if_true] at h
        cases hrr : item.readRaises with
        | true =>
          rw [hrr] at h
          simp only [if_true] at h
          obtain rfl := Option.some.inj h
          cases hbody
        | false =>
          rw [hrr] at h
          simp only [Bool.false_eq_true, if_false] at h
          refine ih (i + 1) _ _ _ _ _ _ _ ?_ h hbody
          intro fn html hsh hmem
          rcases List.mem_append.mp hmem with hmem | hmem
          · exact hinv fn html hsh hmem
          · simp at hmem
            obtain ⟨-, rfl, rfl⟩ := hmem
            rfl

lemma batch_go_strip (H1 H2 : List Char → List Char) :
    ∀ (files : List BatchItem) (i : Nat)
      (results1 results2 : List BatchEntry)
      (created deleted : List Nat) (convs : Nat),
      results1.map stripHashEntry = results2.map stripHashEntry →
      (batch_go H1 files i results1 created deleted convs).map stripHashOut =
      (batch_go H2 files i results2 created deleted convs).map stripHashOut := by
  intro files
  induction files with
  | nil =>
    intro i results1 results2 created deleted convs hres
    have hlen : results1.length = results2.length := by
      have := congrArg List.length hres
      simpa using this
    simp [batch_go, stripHashOut, stripHashResp, hres, hlen]
  | cons item rest ih =>
    intro i results1 results2 created deleted convs hres
    simp only [batch_go]
    rcases hcv : docx_to_html item.uno item.exported item.enhOk with _ | ⟨success, content⟩
    · simp
    · cases success with
      | false =>
        simp only [Bool.false_eq_true, if_false]
        refine ih (i + 1) _ _ _ _ _ (by simp [hres])
      | true =>
        simp only [if_true]
        cases hrr : item.readRaises with
        | true => simp [stripHashOut, stripHashResp]
        | false =>
          refine ih (i + 1) _ _ _ _ _ ?_
          simp [hres, stripHashEntry]

/-- C7: in every successful docx-to-html response — single-file or
per-file inside a batch — the `hash` field is the hash function
(modelling `hashlib.sha256(html_content.encode()).hexdigest()`, whose
output is the lowercase hex SHA-256 digest of the UTF-8 encoding)
applied to exactly the `html` string of the same response; and the hash
is used for nothing else: with every hash blanked out, the responses
and effects of the handlers are independent of the hash function. -/
theorem hash_field_correct :
    (∀ (H : List Char → List Char) (req : DocxToHtmlReq)
      (env : DocxToHtmlEnv) (out : HandlerOut) (html hsh : List Char),
      convert_docx_to_html H req env = some out →
      out.body = .jsonOk html hsh → hsh = H html) ∧
    (∀ (H : List Char → List Char) (files : List BatchItem)
      (out : HandlerOut) (res : List BatchEntry) (n : Nat)
      (fn html hsh : List Char),
      batch_convert H files = some out → out.body = .batchResp res n →
      BatchEntry.ok fn html hsh ∈ res → hsh = H html) ∧
    (∀ (H1 H2 : List Char → List Char) (req : DocxToHtmlReq)
      (env : DocxToHtmlEnv),
      (convert_docx_to_html H1 req env).map stripHashOut =
      (convert_docx_to_html H2 req env).map stripHashOut) ∧
    (∀ (H1 H2 : List Char → List Char) (files : List BatchItem),
      (batch_convert H1 files).map stripHashOut =
      (batch_convert H2 files).map stripHashOut) := by
  refine ⟨?_, ?_, ?_, ?_⟩
  · intro H req env out html hsh h hbody
    rw [convert_docx_to_html_char] at h
    repeat' split at h
    all_goals cases h
    all_goals cases hbody
    rfl
  · intro H files out res n fn html hsh h hbody hmem
    unfold batch_convert at h
    by_cases hfe : files.isEmpty
    · rw [if_pos hfe] at h
      obtain rfl := Option.some.inj h
      cases hbody
    · rw [if_neg hfe] at h
      exact batch_go_hash H files 0 [] [] [] 0 out res n
        (by intro fn html hsh hmem; simp at hmem) h hbody fn html hsh hmem
  · intro H1 H2 req env
    rw [convert_docx_to_html_char, convert_docx_to_html_char]
    rcases req.hasFile <;> rcases hfn : req.filename <;>
      rcases env.saveRaises <;>
      rcases hcn : (get_uno_context env.uno.connect).isSome <;>
      rcases hok : allUnoOk env.uno <;> rcases env.readRaises <;>
      simp [hfn, hcn, hok, stripHashOut, stripHashResp]
  · intro H1 H2 files
    unfold batch_convert
    by_cases hfe : files.isEmpty
    · rw [if_pos hfe, if_pos hfe]
    · rw [if_neg hfe, if_neg hfe]
      exact batch_go_strip H1 H2 files 0 [] [] [] [] 0 rfl

/-- Witness for `hash_field_correct`: with `H` returning the reversed
string, a successful response carries `hash = H html`. -/
theorem hash_field_correct_witness :
    convert_docx_to_html (fun c => c.reverse) ⟨true, "a".data⟩
      ⟨⟨[true], true, true, true, true, true⟩, "x".data, false, false,
        false⟩ =
      some ⟨200, .jsonOk "x".data "x".data, [0, 1], [0, 1], 1⟩ ∧
    ("x".data : List Char) = (fun (c : List Char) => c.reverse) "x".data :=
  ⟨by decide,
   hash_field_correct.1 (fun c => c.reverse) ⟨true, "a".data⟩
     ⟨⟨[true], true, true, true, true, true⟩, "x".data, false, false, false⟩
     ⟨200, .jsonOk "x".data "x".data, [0, 1], [0, 1], 1⟩
     "x".data "x".data (by decide) rfl⟩
